import Mathlib

/-!
Shallow embedding of the A/B-testing core of the churn-prediction service
(`src/api/ab_testing.py` and the `/predict` handler of `src/api/main.py`).

Python dictionaries that preserve insertion order are modelled as association
lists `List (String × ℚ)`; floats as exact rationals; the random draw, wall
clock and uuid as explicit parameters; exceptions as `Except`.
-/

namespace MLPipeline

/-- One entry of `ABTester.request_log` (the dict built in `log_request`). -/
structure LogEntry where
  request_id : String
  timestamp : String
  model_version : String
  prediction : Int
  churn_probability : ℚ
  latency_ms : ℚ
deriving Repr, DecidableEq

/-- State of an `ABTester` instance. -/
structure ABTester where
  traffic_split : List (String × ℚ)
  request_log : List LogEntry
deriving Repr, DecidableEq

/-- Default traffic split used when the argument is falsy
(Python `None` or an empty dict): `[("v1", 0.5), ("v2", 0.5)]`. -/
def defaultSplit : List (String × ℚ) := [("v1", 0.5), ("v2", 0.5)]

/-- Embedding of the assignment `self.traffic_split = traffic_split or
... default ...` in `ABTester.__init__`: `None` and the empty dict are both
falsy in Python, so either is replaced by the default split. -/
def effectiveSplit (traffic_split : Option (List (String × ℚ))) :
    List (String × ℚ) :=
  match traffic_split with
  | none => defaultSplit
  | some [] => defaultSplit
  | some l => l

/-- Embedding of `ABTester.__init__`: stores the effective split and an empty
log, then validates `0.99 <= total <= 1.01` on the sum of the stored weights,
raising `ValueError` otherwise.  No other validation is performed. -/
def ABTester.init (traffic_split : Option (List (String × ℚ))) :
    Except String ABTester :=
  if 0.99 ≤ ((effectiveSplit traffic_split).map Prod.snd).sum
      ∧ ((effectiveSplit traffic_split).map Prod.snd).sum ≤ 1.01 then
    Except.ok { traffic_split := effectiveSplit traffic_split,
                request_log := [] }
  else
    Except.error "Traffic split must sum to 1.0"

/-- Accumulation loop of `select_model`: walks the split in insertion order,
adding each weight to `cumulative`, returning the first version with
`rand_value <= cumulative`; `none` when the loop falls through. -/
def selectModelLoop (rand_value : ℚ) (cumulative : ℚ) :
    List (String × ℚ) → Option String
  | [] => none
  | (model_version, split) :: rest =>
    if rand_value ≤ cumulative + split then some model_version
    else selectModelLoop rand_value (cumulative + split) rest

/-- Embedding of `ABTester.select_model`, the draw `random.random()` passed
in as `rand_value`; the fallback `list(self.traffic_split.keys())[0]` is the
head of the key list (`none` models the `IndexError` on an empty split). -/
def ABTester.select_model (t : ABTester) (rand_value : ℚ) : Option String :=
  match selectModelLoop rand_value 0 t.traffic_split with
  | some model_version => some model_version
  | none => (t.traffic_split.map Prod.fst).head?

/-- Fields of the dict returned by `ChurnPredictor.predict` that the router
reads (`log_request` and the response construction). -/
structure Prediction where
  prediction : Int
  churn_probability : ℚ
  will_churn : Bool
  confidence : ℚ
deriving Repr, DecidableEq

/-- Embedding of `ABTester.log_request`: appends one entry to `request_log`;
the timestamp `datetime.now().isoformat()` is the explicit parameter `now`. -/
def ABTester.log_request (t : ABTester) (model_version : String)
    (p : Prediction) (latency_ms : ℚ) (request_id : String) (now : String) :
    ABTester :=
  { t with request_log := t.request_log ++
      [{ request_id := request_id, timestamp := now,
         model_version := model_version, prediction := p.prediction,
         churn_probability := p.churn_probability,
         latency_ms := latency_ms }] }

/-- Per-model dict of `get_statistics`. -/
structure ModelStats where
  request_count : ℕ
  traffic_percentage : ℚ
  avg_latency_ms : ℚ
  churn_rate : ℚ
  min_latency_ms : ℚ
  max_latency_ms : ℚ
deriving Repr, DecidableEq

/-- Dict returned by `get_statistics`. -/
structure Stats where
  total_requests : ℕ
  models : List (String × ModelStats)
deriving Repr, DecidableEq

/-- Python builtin `min` over a list; only applied to non-empty lists here. -/
def listMin : List ℚ → ℚ
  | [] => 0
  | x :: rest => rest.foldl min x

/-- Python builtin `max` over a list; only applied to non-empty lists here. -/
def listMax : List ℚ → ℚ
  | [] => 0
  | x :: rest => rest.foldl max x

/-- Body of the per-model loop of `get_statistics`: the filtered
`model_requests` and, when non-empty, the stats dict; `none` when the
`if model_requests:` guard skips the version. -/
def ABTester.modelStatsFor (t : ABTester) (model_version : String) :
    Option ModelStats :=
  let model_requests :=
    t.request_log.filter (fun r => r.model_version == model_version)
  if model_requests.isEmpty then none
  else
    let latencies := model_requests.map LogEntry.latency_ms
    let predictions := model_requests.map LogEntry.prediction
    some { request_count := model_requests.length,
           traffic_percentage :=
             (model_requests.length : ℚ) / (t.request_log.length : ℚ) * 100,
           avg_latency_ms := latencies.sum / (latencies.length : ℚ),
           churn_rate :=
             ((predictions.sum : Int) : ℚ) / (predictions.length : ℚ) * 100,
           min_latency_ms := listMin latencies,
           max_latency_ms := listMax latencies }

/-- Embedding of `ABTester.get_statistics`: early return on an empty log,
otherwise the per-model map built by iterating `self.traffic_split.keys()`
in order, inserting only versions whose filtered request list is
non-empty. -/
def ABTester.get_statistics (t : ABTester) : Stats :=
  if t.request_log.isEmpty then { total_requests := 0, models := [] }
  else
    { total_requests := t.request_log.length,
      models := (t.traffic_split.map Prod.fst).filterMap
        (fun v => (t.modelStatsFor v).map (fun s => (v, s))) }

/-- Method call `t.get_statistics()` as a state transformer: the method only
reads `self`, so the post-state is the pre-state. -/
def getStatsCall (t : ABTester) : Stats × ABTester := (t.get_statistics, t)

/-- Embedding of `ABTester.reset_logs`. -/
def ABTester.reset_logs (t : ABTester) : ABTester :=
  { t with request_log := [] }

/-- Response model of the `/predict` endpoint. -/
structure PredictionResponse where
  request_id : String
  model_version : String
  prediction : Int
  churn_probability : ℚ
  will_churn : Bool
  confidence : ℚ
  latency_ms : ℚ
deriving Repr, DecidableEq

/-- Embedding of the `/predict` handler `predict_churn` of
`src/api/main.py`, with the registry `models` as an association list of
predict functions, the uuid, clock readings and random draw as explicit
parameters.  A missing registry key (Python `KeyError`) and a predictor
failure both land in the `except Exception` handler, which re-raises as an
HTTP 500 without touching `ab_tester`; `log_request` runs only after a
successful prediction. -/
def predict_churn {Input : Type}
    (models : List (String × (Input → Except String Prediction)))
    (ab_tester : ABTester) (customer : Input) (rand_value : ℚ)
    (request_id : String) (now : String) (latency_ms : ℚ) :
    Except String PredictionResponse × ABTester :=
  match ab_tester.select_model rand_value with
  | none => (Except.error "Prediction failed: selection error", ab_tester)
  | some selected_model =>
    match models.lookup selected_model with
    | none =>
        (Except.error ("Prediction failed: " ++ selected_model), ab_tester)
    | some predictor =>
      match predictor customer with
      | Except.error e =>
          (Except.error ("Prediction failed: " ++ e), ab_tester)
      | Except.ok prediction =>
        (Except.ok { request_id := request_id,
                     model_version := selected_model,
                     prediction := prediction.prediction,
                     churn_probability := prediction.churn_probability,
                     will_churn := prediction.will_churn,
                     confidence := prediction.confidence,
                     latency_ms := latency_ms },
         ab_tester.log_request selected_model prediction
           latency_ms request_id now)

/-! ### Helper lemmas -/

/-- The effective split is never the empty list. -/
theorem effectiveSplit_ne_nil (ts0 : Option (List (String × ℚ))) :
    effectiveSplit ts0 ≠ [] := by
  rcases ts0 with _ | (_ | ⟨p, rest⟩) <;> simp [effectiveSplit, defaultSplit]

/-- A successful `init` stores exactly the effective split and an empty log. -/
theorem init_ok_elim {ts0 : Option (List (String × ℚ))} {t : ABTester}
    (h : ABTester.init ts0 = Except.ok t) :
    t.traffic_split = effectiveSplit ts0 ∧ t.request_log = [] := by
  unfold ABTester.init at h
  split at h
  · injection h with h2
    subst h2
    exact ⟨rfl, rfl⟩
  · exact Except.noConfusion h

/-- A version returned by the accumulation loop is a key of the split. -/
theorem selectModelLoop_mem {r : ℚ} :
    ∀ {ts : List (String × ℚ)} {c : ℚ} {v : String},
      selectModelLoop r c ts = some v → v ∈ ts.map Prod.fst := by
  intro ts
  induction ts with
  | nil => intro c v h; exact Option.noConfusion h
  | cons p rest ih =>
    obtain ⟨u, w⟩ := p
    intro c v h
    simp only [selectModelLoop] at h
    split at h
    · injection h with h2
      simp [h2]
    · have := ih h
      simp [this]

/-- When every weight is non-negative and the draw exceeds the total weight
sum on top of the starting accumulator, the loop falls through. -/
theorem selectModelLoop_none {r : ℚ} :
    ∀ (ts : List (String × ℚ)) (c : ℚ),
      (∀ p ∈ ts, 0 ≤ p.2) → c + (ts.map Prod.snd).sum < r →
      selectModelLoop r c ts = none := by
  intro ts
  induction ts with
  | nil => intro c _ _; rfl
  | cons p rest ih =>
    obtain ⟨u, w⟩ := p
    intro c hw hlt
    have hrest : ∀ q ∈ rest, 0 ≤ q.2 := fun q hq =>
      hw q (List.mem_cons_of_mem _ hq)
    have hsum : (0:ℚ) ≤ (rest.map Prod.snd).sum := by
      apply List.sum_nonneg
      intro x hx
      obtain ⟨q, hq, rfl⟩ := List.mem_map.mp hx
      exact hrest q hq
    simp only [List.map_cons, List.sum_cons] at hlt
    have hcond : ¬ (r ≤ c + w) := by push_neg; linarith
    simp only [selectModelLoop, if_neg hcond]
    exact ih (c + w) hrest (by linarith)

/-- Cumulative weight of the split through position `i` (inclusive). -/
def cumulativeAt (ts : List (String × ℚ)) (i : ℕ) : ℚ :=
  ((ts.take (i + 1)).map Prod.snd).sum

theorem cumulativeAt_zero (u : String) (w : ℚ) (rest : List (String × ℚ)) :
    cumulativeAt ((u, w) :: rest) 0 = w := by
  simp [cumulativeAt]

theorem cumulativeAt_succ (u : String) (w : ℚ) (rest : List (String × ℚ))
    (m : ℕ) : cumulativeAt ((u, w) :: rest) (m + 1) = w + cumulativeAt rest m := by
  simp [cumulativeAt, List.take_succ_cons]

/-- The loop returns the entry at the least position whose cumulative weight
(on top of the starting accumulator) reaches the draw. -/
theorem selectModelLoop_crossing :
    ∀ (ts : List (String × ℚ)) (c r : ℚ) (i : ℕ) (hi : i < ts.length),
      r ≤ c + cumulativeAt ts i →
      (∀ j < i, c + cumulativeAt ts j < r) →
      selectModelLoop r c ts = some (ts.get ⟨i, hi⟩).1 := by
  intro ts
  induction ts with
  | nil => intro c r i hi; exact absurd hi (by simp)
  | cons p rest ih =>
    obtain ⟨u, w⟩ := p
    intro c r i hi hcross hbefore
    cases i with
    | zero =>
      rw [cumulativeAt_zero] at hcross
      simp [selectModelLoop, if_pos hcross]
    | succ k =>
      have hw : c + w < r := by
        have := hbefore 0 (Nat.succ_pos k)
        rwa [cumulativeAt_zero] at this
      have hcond : ¬ (r ≤ c + w) := not_le.mpr hw
      rw [cumulativeAt_succ] at hcross
      simp only [selectModelLoop, if_neg hcond]
      have hb : ∀ j < k, (c + w) + cumulativeAt rest j < r := by
        intro j hj
        have := hbefore (j + 1) (Nat.succ_lt_succ hj)
        rw [cumulativeAt_succ] at this
        linarith
      have hk : k < rest.length := by
        simpa using Nat.lt_of_succ_lt_succ hi
      exact ih (c + w) r k hk (by linarith) hb

/-- Membership in the keys of the per-model map built by `get_statistics`. -/
theorem mem_keys_filterMap (g : String → Option ModelStats) (v : String)
    (keys : List String) :
    v ∈ (keys.filterMap (fun u => (g u).map (fun s => (u, s)))).map Prod.fst
      ↔ (v ∈ keys ∧ (g v).isSome = true) := by
  induction keys with
  | nil => simp
  | cons u rest ih =>
    cases hg : g u with
    | none =>
      simp only [List.filterMap_cons, hg, Option.map_none', List.mem_cons]
      rw [ih]
      constructor
      · rintro ⟨hmem, hs⟩
        exact ⟨Or.inr hmem, hs⟩
      · rintro ⟨hmem, hs⟩
        rcases hmem with rfl | hmem2
        · rw [hg] at hs
          exact Bool.noConfusion hs
        · exact ⟨hmem2, hs⟩
    | some s =>
      simp only [List.filterMap_cons, hg, Option.map_some', List.map_cons,
        List.mem_cons]
      rw [ih]
      constructor
      · rintro (rfl | ⟨hm, hs⟩)
        · exact ⟨Or.inl rfl, by rw [hg]; rfl⟩
        · exact ⟨Or.inr hm, hs⟩
      · rintro ⟨hm, hs⟩
        rcases hm with rfl | hm2
        · exact Or.inl rfl
        · exact Or.inr ⟨hm2, hs⟩

/-- The per-model loop produces an entry exactly when some record matches. -/
theorem modelStatsFor_isSome (t : ABTester) (v : String) :
    (t.modelStatsFor v).isSome = true
      ↔ t.request_log.filter (fun r => r.model_version == v) ≠ [] := by
  by_cases hemp : (t.request_log.filter (fun r => r.model_version == v)).isEmpty
  · have hnil := List.isEmpty_iff.mp hemp
    simp [ABTester.modelStatsFor, hemp, hnil]
  · have hnil : t.request_log.filter (fun r => r.model_version == v) ≠ [] := by
      intro h
      exact hemp (by simp [h])
    simp [ABTester.modelStatsFor, hemp, hnil]

/-! ### Claim C1 -/

/-- C1: each call of the `/predict` handler appends exactly one record to
`request_log` when it succeeds, leaves the state unchanged whenever it
fails, and in particular fails with the state unchanged when the selected
version is absent from the model registry. -/
theorem predict_churn_log_discipline {Input : Type}
    (models : List (String × (Input → Except String Prediction)))
    (ab : ABTester) (customer : Input) (r : ℚ) (rid now : String) (lat : ℚ) :
    ((∀ resp, (predict_churn models ab customer r rid now lat).1
        = Except.ok resp →
        (predict_churn models ab customer r rid now lat).2.request_log.length
          = ab.request_log.length + 1)
      ∧ (∀ e, (predict_churn models ab customer r rid now lat).1
        = Except.error e →
        (predict_churn models ab customer r rid now lat).2 = ab))
    ∧ (∀ v, ab.select_model r = some v → models.lookup v = none →
        (∃ e, (predict_churn models ab customer r rid now lat).1
          = Except.error e)
          ∧ (predict_churn models ab customer r rid now lat).2 = ab) := by
  cases hsel : ab.select_model r with
  | none =>
    refine ⟨⟨?_, ?_⟩, ?_⟩
    · intro resp h
      simp [predict_churn, hsel] at h
    · intro e _
      simp [predict_churn, hsel]
    · intro v hv
      exact absurd hv (by simp)
  | some sel =>
    cases hlk : models.lookup sel with
    | none =>
      refine ⟨⟨?_, ?_⟩, ?_⟩
      · intro resp h
        simp [predict_churn, hsel, hlk] at h
      · intro e _
        simp [predict_churn, hsel, hlk]
      · intro v hv hlv
        injection hv with hv2
        subst hv2
        exact ⟨⟨"Prediction failed: " ++ sel,
          by simp [predict_churn, hsel, hlk]⟩,
          by simp [predict_churn, hsel, hlk]⟩
    | some f =>
      cases hp : f customer with
      | error e0 =>
        refine ⟨⟨?_, ?_⟩, ?_⟩
        · intro resp h
          simp [predict_churn, hsel, hlk, hp] at h
        · intro e _
          simp [predict_churn, hsel, hlk, hp]
        · intro v hv hlv
          injection hv with hv2
          subst hv2
          rw [hlk] at hlv
          exact Option.noConfusion hlv
      | ok p =>
        refine ⟨⟨?_, ?_⟩, ?_⟩
        · intro resp _
          simp [predict_churn, hsel, hlk, hp, ABTester.log_request]
        · intro e h
          simp [predict_churn, hsel, hlk, hp] at h
        · intro v hv hlv
          injection hv with hv2
          subst hv2
          rw [hlk] at hlv
          exact Option.noConfusion hlv

/-- The `predict` outcome used by concrete registries below. -/
def constPrediction : Prediction :=
  { prediction := 1, churn_probability := 0.7, will_churn := true,
    confidence := 0.7 }

/-- A registry holding only version v1 (the policy also references v2). -/
def soloRegistry : List (String × (Unit → Except String Prediction)) :=
  [("v1", fun _ => Except.ok constPrediction)]

/-- A tester over the default split with an empty log. -/
def emptyLogTester : ABTester :=
  { traffic_split := defaultSplit, request_log := [] }

theorem predict_churn_log_discipline_witness :
    (∃ e, (predict_churn soloRegistry emptyLogTester () 0.8 "rid" "now" 2).1
      = Except.error e)
    ∧ (predict_churn soloRegistry emptyLogTester () 0.8 "rid" "now" 2).2
      = emptyLogTester :=
  (predict_churn_log_discipline soloRegistry emptyLogTester () 0.8 "rid"
      "now" 2).2 "v2"
    (by norm_num [ABTester.select_model, selectModelLoop, emptyLogTester,
      defaultSplit])
    (by simp [soloRegistry])

/-! ### Claim C2 -/

/-- A single v1 record. -/
def sampleEntryV1 : LogEntry :=
  { request_id := "r0", timestamp := "t0", model_version := "v1",
    prediction := 1, churn_probability := 0.8, latency_ms := 12 }

/-- A tester whose log has records for v1 only. -/
def oneSidedTester : ABTester :=
  { traffic_split := defaultSplit, request_log := [sampleEntryV1] }

/-- C2 counterexample: with a non-empty log and v2 in the policy but no v2
records, `get_statistics` omits v2 from the per-model map instead of
reporting it with zero fields. -/
theorem get_statistics_omits_zero_match_version :
    "v2" ∈ oneSidedTester.traffic_split.map Prod.fst
    ∧ oneSidedTester.request_log ≠ []
    ∧ (oneSidedTester.get_statistics).models.lookup "v2" = none := by
  refine ⟨by simp [oneSidedTester, defaultSplit], by simp [oneSidedTester], ?_⟩
  norm_num +decide [ABTester.get_statistics, ABTester.modelStatsFor,
    oneSidedTester, defaultSplit, sampleEntryV1, listMin, listMax,
    List.filter_cons, List.lookup]

/-- C2 amended: for a non-empty record set, a version of the traffic policy
appears in the per-version map of `get_statistics` exactly when at least one
record matches it; zero-match versions are omitted. -/
theorem get_statistics_version_reported_iff_matching (t : ABTester)
    (v : String) (hne : t.request_log ≠ [])
    (hv : v ∈ t.traffic_split.map Prod.fst) :
    (v ∈ (t.get_statistics).models.map Prod.fst)
      ↔ t.request_log.filter (fun r => r.model_version == v) ≠ [] := by
  have hemp : t.request_log.isEmpty = false := by
    cases hl : t.request_log
    · exact absurd hl hne
    · rfl
  have hstats : (t.get_statistics).models
      = (t.traffic_split.map Prod.fst).filterMap
          (fun u => (t.modelStatsFor u).map (fun s => (u, s))) := by
    simp [ABTester.get_statistics, hemp]
  rw [hstats, mem_keys_filterMap]
  simp [hv, modelStatsFor_isSome]

theorem get_statistics_version_reported_iff_matching_witness :
    ("v1" ∈ (oneSidedTester.get_statistics).models.map Prod.fst)
      ↔ oneSidedTester.request_log.filter
          (fun r => r.model_version == "v1") ≠ [] :=
  get_statistics_version_reported_iff_matching oneSidedTester "v1"
    (by simp [oneSidedTester]) (by simp [oneSidedTester, defaultSplit])

/-! ### Claim C3 -/

/-- A validated split whose weights sum to 0.99, below some draws. -/
def roundingSplit : List (String × ℚ) := [("v1", 0.49), ("v2", 0.5)]

/-- The tester built from `roundingSplit`. -/
def roundingTester : ABTester :=
  { traffic_split := roundingSplit, request_log := [] }

/-- C3 counterexample: with the validated split `roundingSplit` and the draw
0.995 exceeding the total cumulative sum 0.99, `select_model` returns the
first version v1, not the last version v2. -/
theorem select_model_fallback_first_not_last :
    ABTester.init (some roundingSplit) = Except.ok roundingTester
    ∧ (0:ℚ) ≤ 0.995 ∧ (0.995:ℚ) < 1
    ∧ (roundingSplit.map Prod.snd).sum < 0.995
    ∧ roundingTester.select_model 0.995 = some "v1"
    ∧ (roundingSplit.map Prod.fst).getLast? = some "v2"
    ∧ "v1" ≠ "v2" := by
  refine ⟨?_, by norm_num, by norm_num, by norm_num [roundingSplit], ?_,
    by simp [roundingSplit], by simp⟩
  · norm_num [ABTester.init, effectiveSplit, roundingSplit, roundingTester]
  · norm_num [ABTester.select_model, selectModelLoop, roundingTester,
      roundingSplit]

/-- C3 amended: for a split with non-negative weights, when the draw exceeds
the final cumulative weight sum the loop falls through and `select_model`
returns the first version in iteration order (the fallback indexes position
0 of the key list), not the last. -/
theorem select_model_overflow_returns_first (t : ABTester) (r : ℚ)
    (hw : ∀ p ∈ t.traffic_split, 0 ≤ p.2)
    (hr : (t.traffic_split.map Prod.snd).sum < r) :
    t.select_model r = (t.traffic_split.map Prod.fst).head? := by
  have h := selectModelLoop_none t.traffic_split 0 hw (by simpa using hr)
  simp [ABTester.select_model, h]

theorem select_model_overflow_returns_first_witness :
    roundingTester.select_model 0.995
      = (roundingTester.traffic_split.map Prod.fst).head? :=
  select_model_overflow_returns_first roundingTester 0.995
    (by norm_num [roundingTester, roundingSplit])
    (by norm_num [roundingTester, roundingSplit])

/-! ### Claim C4 -/

/-- A split with a negative weight whose sum is exactly 1. -/
def negativeSplit : List (String × ℚ) := [("v1", 1.5), ("v2", -0.5)]

/-- C4 counterexample: a traffic split containing a negative weight is
accepted by the constructor whenever the sum is within tolerance; no
negative-weight check exists. -/
theorem init_accepts_negative_weight :
    (∃ p ∈ negativeSplit, p.2 < 0)
    ∧ (negativeSplit.map Prod.snd).sum = 1
    ∧ ABTester.init (some negativeSplit)
        = Except.ok { traffic_split := negativeSplit, request_log := [] } := by
  refine ⟨⟨("v2", -0.5), by simp [negativeSplit], by norm_num⟩,
    by norm_num [negativeSplit], ?_⟩
  norm_num [ABTester.init, effectiveSplit, negativeSplit]

/-- C4 amended: the constructor never rejects negative weights; any
non-empty split containing a negative weight is accepted verbatim as long
as the weight sum lies within the `[0.99, 1.01]` tolerance. -/
theorem init_negative_weight_not_rejected (l : List (String × ℚ))
    (hne : l ≠ []) (hneg : ∃ p ∈ l, p.2 < 0)
    (h1 : 0.99 ≤ (l.map Prod.snd).sum) (h2 : (l.map Prod.snd).sum ≤ 1.01) :
    ABTester.init (some l)
      = Except.ok { traffic_split := l, request_log := [] } := by
  have heff : effectiveSplit (some l) = l := by
    cases l
    · exact absurd rfl hne
    · rfl
  unfold ABTester.init
  rw [heff, if_pos ⟨h1, h2⟩]

theorem init_negative_weight_not_rejected_witness :
    ABTester.init (some negativeSplit)
      = Except.ok { traffic_split := negativeSplit, request_log := [] } :=
  init_negative_weight_not_rejected negativeSplit (by simp [negativeSplit])
    ⟨("v2", -0.5), by simp [negativeSplit], by norm_num⟩
    (by norm_num [negativeSplit]) (by norm_num [negativeSplit])

/-! ### Claim C5 -/

/-- C5: `select_model` walks the split in insertion order and returns the
version at the least position whose cumulative weight reaches the draw. -/
theorem select_model_first_crossing (t : ABTester) (r : ℚ) (i : ℕ)
    (hi : i < t.traffic_split.length)
    (hcross : r ≤ cumulativeAt t.traffic_split i)
    (hbefore : ∀ j < i, cumulativeAt t.traffic_split j < r) :
    t.select_model r = some (t.traffic_split.get ⟨i, hi⟩).1 := by
  have h := selectModelLoop_crossing t.traffic_split 0 r i hi
    (by simpa using hcross) (by intro j hj; simpa using hbefore j hj)
  simp [ABTester.select_model, h]

theorem select_model_first_crossing_witness :
    ABTester.select_model
        { traffic_split := defaultSplit, request_log := [] } 0.7
      = some "v2" := by
  have h := select_model_first_crossing
    { traffic_split := defaultSplit, request_log := [] } 0.7 1
    (by norm_num [defaultSplit])
    (by norm_num [cumulativeAt, defaultSplit])
    (by intro j hj
        interval_cases j
        norm_num [cumulativeAt, defaultSplit])
  simpa [defaultSplit] using h

/-! ### Claim C6 -/

/-- The stats-correctness scenario of the spec: three v1 requests with
latencies 10, 20, 30 and two positive outcomes, one v2 request with
latency 5 and no positive outcome. -/
def statsScenarioTester : ABTester :=
  { traffic_split := defaultSplit,
    request_log :=
      [ { request_id := "r1", timestamp := "t1", model_version := "v1",
          prediction := 1, churn_probability := 0.9, latency_ms := 10 },
        { request_id := "r2", timestamp := "t2", model_version := "v1",
          prediction := 1, churn_probability := 0.8, latency_ms := 20 },
        { request_id := "r3", timestamp := "t3", model_version := "v1",
          prediction := 0, churn_probability := 0.2, latency_ms := 30 },
        { request_id := "r4", timestamp := "t4", model_version := "v2",
          prediction := 0, churn_probability := 0.1, latency_ms := 5 } ] }

/-- C6: on the scenario log, `get_statistics` reports v1 with count 3, mean
latency 20 and churn rate 200/3 percent (66.7 to one decimal), v2 with
count 1, mean latency 5 and churn rate 0, and total 4. -/
theorem get_statistics_scenario :
    (statsScenarioTester.get_statistics).total_requests = 4
    ∧ (statsScenarioTester.get_statistics).models.lookup "v1"
        = some { request_count := 3, traffic_percentage := 75,
                 avg_latency_ms := 20, churn_rate := 200 / 3,
                 min_latency_ms := 10, max_latency_ms := 30 }
    ∧ (statsScenarioTester.get_statistics).models.lookup "v2"
        = some { request_count := 1, traffic_percentage := 25,
                 avg_latency_ms := 5, churn_rate := 0,
                 min_latency_ms := 5, max_latency_ms := 5 }
    ∧ (66.65 ≤ (200 / 3 : ℚ) ∧ (200 / 3 : ℚ) < 66.75) := by
  refine ⟨?_, ?_, ?_, by norm_num⟩ <;>
    norm_num +decide [statsScenarioTester, ABTester.get_statistics,
      ABTester.modelStatsFor, defaultSplit, listMin, listMax,
      List.filter_cons, List.lookup]

/-! ### Claim C7 -/

/-- C7 counterexample: an empty traffic split has weight sum 0, far outside
the tolerance, yet construction succeeds because Python replaces the falsy
empty dict by the default split, so the stored weights also differ from the
given ones. -/
theorem init_empty_split_silently_defaulted :
    ((([] : List (String × ℚ)).map Prod.snd).sum < 0.99)
    ∧ ABTester.init (some [])
        = Except.ok { traffic_split := defaultSplit, request_log := [] }
    ∧ defaultSplit ≠ ([] : List (String × ℚ)) := by
  refine ⟨by norm_num, ?_, by simp [defaultSplit]⟩
  norm_num [ABTester.init, effectiveSplit, defaultSplit]

/-- C7 amended: for every non-empty given mapping, construction succeeds
with the given weights stored verbatim exactly when their sum lies in
`[0.99, 1.01]`, and raises exactly when the sum lies outside; an empty or
absent mapping is instead silently replaced by the default split before
validation. -/
theorem init_nonempty_validation_iff (l : List (String × ℚ)) (hne : l ≠ []) :
    (ABTester.init (some l)
        = Except.ok { traffic_split := l, request_log := [] }
      ↔ (0.99 ≤ (l.map Prod.snd).sum ∧ (l.map Prod.snd).sum ≤ 1.01))
    ∧ ((∃ e, ABTester.init (some l) = Except.error e)
      ↔ ¬ (0.99 ≤ (l.map Prod.snd).sum ∧ (l.map Prod.snd).sum ≤ 1.01)) := by
  have heff : effectiveSplit (some l) = l := by
    cases l
    · exact absurd rfl hne
    · rfl
  unfold ABTester.init
  rw [heff]
  by_cases hc : 0.99 ≤ (l.map Prod.snd).sum ∧ (l.map Prod.snd).sum ≤ 1.01
  · rw [if_pos hc]
    constructor
    · simp [hc]
    · simp [hc]
  · rw [if_neg hc]
    constructor
    · constructor
      · intro h
        exact absurd h (by simp)
      · intro h
        exact absurd h hc
    · simp [hc]

/-- A near-one split from the spec examples (sum 0.999, accepted). -/
def nearOneSplit : List (String × ℚ) := [("v1", 0.999)]

theorem init_nonempty_validation_iff_witness :
    (ABTester.init (some nearOneSplit)
        = Except.ok { traffic_split := nearOneSplit, request_log := [] }
      ↔ (0.99 ≤ (nearOneSplit.map Prod.snd).sum
          ∧ (nearOneSplit.map Prod.snd).sum ≤ 1.01))
    ∧ ((∃ e, ABTester.init (some nearOneSplit) = Except.error e)
      ↔ ¬ (0.99 ≤ (nearOneSplit.map Prod.snd).sum
          ∧ (nearOneSplit.map Prod.snd).sum ≤ 1.01)) :=
  init_nonempty_validation_iff nearOneSplit (by simp [nearOneSplit])

/-! ### Claim C8 -/

/-- C8: on an empty request log, `get_statistics` returns zero total
requests and an empty per-model map (the early return; no division
occurs). -/
theorem get_statistics_empty_log (t : ABTester) (h : t.request_log = []) :
    t.get_statistics = { total_requests := 0, models := [] } := by
  simp [ABTester.get_statistics, h]

theorem get_statistics_empty_log_witness :
    ABTester.get_statistics
        { traffic_split := defaultSplit, request_log := [] }
      = { total_requests := 0, models := [] } :=
  get_statistics_empty_log
    { traffic_split := defaultSplit, request_log := [] } rfl

/-! ### Claim C9 -/

/-- C9: the `get_statistics` method call is a pure observer: the post-state
equals the pre-state (log and split included) and a repeated call returns
the same statistics. -/
theorem getStatsCall_pure (t : ABTester) :
    (getStatsCall t).2 = t
    ∧ (getStatsCall t).2.request_log = t.request_log
    ∧ (getStatsCall t).2.traffic_split = t.traffic_split
    ∧ (getStatsCall ((getStatsCall t).2)).1 = (getStatsCall t).1 :=
  ⟨rfl, rfl, rfl, rfl⟩

/-! ### Claim C10 -/

/-- C10: on any state accepted by the constructor, `select_model` is total
for every draw in `[0, 1)`: it returns some version, and that version is a
key of the traffic split (both the loop branch and the fallback index into
a non-empty key list). -/
theorem select_model_total_in_keys {ts0 : Option (List (String × ℚ))}
    {t : ABTester} (hinit : ABTester.init ts0 = Except.ok t) (r : ℚ)
    (h0 : 0 ≤ r) (h1 : r < 1) :
    ∃ v, t.select_model r = some v ∧ v ∈ t.traffic_split.map Prod.fst := by
  have hne : t.traffic_split ≠ [] := by
    rw [(init_ok_elim hinit).1]
    exact effectiveSplit_ne_nil ts0
  obtain ⟨u, w, rest, hk⟩ :
      ∃ u w rest, t.traffic_split = (u, w) :: rest := by
    rcases h : t.traffic_split with _ | ⟨⟨u, w⟩, rest⟩
    · exact absurd h hne
    · exact ⟨u, w, rest, rfl⟩
  cases hloop : selectModelLoop r 0 t.traffic_split with
  | some v =>
    exact ⟨v, by simp [ABTester.select_model, hloop],
      selectModelLoop_mem hloop⟩
  | none =>
    refine ⟨u, ?_, ?_⟩
    · rw [hk] at hloop
      simp [ABTester.select_model, hk, hloop]
    · simp [hk]

theorem select_model_total_in_keys_witness :
    ∃ v, ABTester.select_model
        { traffic_split := defaultSplit, request_log := [] } 0.3 = some v
      ∧ v ∈ ({ traffic_split := defaultSplit, request_log := [] }
          : ABTester).traffic_split.map Prod.fst :=
  @select_model_total_in_keys (some defaultSplit)
    { traffic_split := defaultSplit, request_log := [] }
    (by norm_num [ABTester.init, effectiveSplit, defaultSplit]) 0.3
    (by norm_num) (by norm_num)

end MLPipeline
